import Mathlib

/-!
Shallow embedding of `spdx_validator/validator.py` (class `SPDXValidator`).

The validator walks an SPDX manifest's `DYNAMIC_LINK` relationships,
resolving each referenced external manifest on a search path, verifying its
checksum against the referencing document's `externalDocumentRefs`,
recursing into it, and confirming the back-reference.  File-system access,
the YAML/JSON parsers, the JSON-schema checker and the digest function are
modelled as components of an explicit environment `Env`; the mutable
instance state (`checked_elements`, `manifest_data`) is threaded as `SState`.
Recursion is made total with an explicit fuel counter; running out of fuel
is the distinguished outcome `VError.fuelOut`, so genuine non-termination of
the Python recursion shows up as `fuelOut` for every fuel bound.
-/

deriving instance DecidableEq for Except

namespace SpdxVal

/-- Python `str.replace(pat, rep)` on character lists: replace every
leftmost non-overlapping occurrence of `pat` by `rep`.  (Only invoked with
a non-empty `pat`, matching the single call site `replace("DocumentRef-", "")`.)
The extra `Nat` argument is structural-recursion fuel; every step consumes at
least one character, so any fuel at least the list's length is exact. -/
def replaceFuel (pat rep : List Char) : Nat → List Char → List Char
  | 0, l => l
  | _ + 1, [] => []
  | n + 1, c :: cs =>
    if pat.isPrefixOf (c :: cs) ∧ pat ≠ [] then
      rep ++ replaceFuel pat rep n (List.drop (pat.length - 1) cs)
    else
      c :: replaceFuel pat rep n cs

/-- Python `s.replace(pat, rep)` for strings. -/
def pyReplace (s pat rep : String) : String :=
  ⟨replaceFuel pat.toList rep.toList s.toList.length s.toList⟩

/-- Characters of `l` strictly before the first occurrence of `c`
(all of `l` when `c` does not occur): Python `s.split(c)[0]`. -/
def takeUntil (c : Char) : List Char → List Char
  | [] => []
  | x :: xs => if x = c then [] else x :: takeUntil c xs

/-- Python `s.split(c)[0]`. -/
def splitHead (s : String) (c : Char) : String :=
  ⟨takeUntil c s.toList⟩

/-- Python `s.split(c)`: split at every occurrence of the character `c`.
The result is always non-empty. -/
def splitOnChar (c : Char) : List Char → List (List Char)
  | [] => [[]]
  | x :: xs =>
    if x = c then [] :: splitOnChar c xs
    else
      match splitOnChar c xs with
      | [] => [[x]]
      | h :: t => (x :: h) :: t

/-- Characters of the basename of a path: everything after the last slash. -/
def afterLastSlash (l : List Char) : List Char :=
  l.foldl (fun acc ch => if ch = '/' then [] else acc ++ [ch]) []

/-- Index of the last dot of a character list, if any. -/
def lastDotIdx (l : List Char) : Option Nat :=
  (List.range l.length).foldl
    (fun acc i => if l.get? i = some '.' then some i else acc) none

/-- Modelled on `os.path.splitext(p)[1]`: the extension (dot included) of the
basename of `p`, where a dot only starts an extension when a non-dot
character precedes it inside the basename. -/
def splitextSuffix (p : String) : String :=
  let base := afterLastSlash p.toList
  match lastDotIdx base with
  | none => ""
  | some i => if (base.take i).any (fun ch => ch ≠ '.') then ⟨base.drop i⟩ else ""

/-- Python `s.lower()` restricted to ASCII, as used on file suffixes. -/
def lowerStr (s : String) : String :=
  ⟨s.toList.map Char.toLower⟩

/-- Modelled on `os.path.join(a, b)` for relative paths. -/
def joinPath (a b : String) : String :=
  if a = "" then b
  else if a.toList.getLastD ' ' = '/' then a ++ b
  else a ++ "/" ++ b

/-- The `checksum` object of an `externalDocumentRefs` entry. -/
structure Checksum where
  algorithm : String
  checksumValue : String
deriving DecidableEq, Repr

/-- One entry of `externalDocumentRefs`. -/
structure ExternalDocRef where
  externalDocumentId : String
  checksum : Checksum
deriving DecidableEq, Repr

/-- One entry of `packages`. -/
structure Package where
  SPDXID : String
deriving DecidableEq, Repr

/-- One entry of `relationships`. -/
structure Relationship where
  relationshipType : String
  spdxElementId : String
  relatedSpdxElement : String
deriving DecidableEq, Repr

/-- A parsed SPDX manifest, restricted to the fields the validator reads.
`relationships` and `externalDocumentRefs` are optional because the code
tests for the presence of those keys. -/
structure Manifest where
  name : String
  packages : List Package
  relationships : Option (List Relationship)
  externalDocumentRefs : Option (List ExternalDocRef)
deriving DecidableEq, Repr

/-- Environment: file system, parsers, schema checker and digest function.
`readYaml`/`readJson` return `.error ()` when opening-for-parse raises, and
`.ok none` when the parser yields Python `None`.  `hash` is
`hash_from_file(path, algorithm)`. -/
structure Env where
  spdxDirs : List String
  isFile : String → Bool
  openOk : String → Bool
  readYaml : String → Except Unit (Option Manifest)
  readJson : String → Except Unit (Option Manifest)
  schemaOk : Option Manifest → Bool
  hash : String → String → String

/-- Instrumentation record of one `hash_from_file` invocation, tagged with
the element id being processed at the call site. -/
structure HashCall where
  elemId : String
  file : String
  algorithm : String
deriving DecidableEq, Repr

/-- Mutable validator state: `checked_elements`, `self.manifest_data`, and
the ghost trace of checksum-provider invocations. -/
structure SState where
  checked : List String
  topManifest : Option Manifest
  hashCalls : List HashCall
deriving DecidableEq, Repr

/-- State of a freshly constructed `SPDXValidator`. -/
def initState : SState :=
  { checked := [], topManifest := none, hashCalls := [] }

/-- Outcomes of the validator, one constructor per `raise` site (plus the
`exit(1)` call, the Python `TypeError`/`IndexError` crashes, and fuel
exhaustion standing for unbounded recursion). -/
inductive VError where
  | couldNotOpen (file : String)
  | schemaViolation
  | relatedElemNotFound (item : String)
  | manifestNotFound (elemId : String)
  | ambiguousManifest (elemId : String) (count : Nat)
  | checksumMismatch (file expected actual : String)
  | extDocRefNotFound (ref : String) (file : String)
  | backRefNotFound (elemId : String) (file : String)
  | processExit (code : Nat)
  | typeError
  | indexError
  | fuelOut
deriving DecidableEq, Repr

/-- Body of the `try` block of `validate_file` (lines 58-71): open the file,
dispatch on the lower-cased suffix, parse.  `.error ()` stands for any
exception raised inside the block, including the `SPDXValidationException`
for an unsupported suffix, which the enclosing `except` also catches. -/
def tryLoad (env : Env) (file : String) : Except Unit (Option Manifest) :=
  if env.openOk file then
    let suff := lowerStr (splitextSuffix file)
    if suff = ".yaml" ∨ suff = ".yml" then env.readYaml file
    else if suff = ".json" then env.readJson file
    else .error ()
  else .error ()

/-- Lines 56-76 of `validate_file`: the `try`/`except` around loading.  The
`raise SPDXValidationException("Could not open file: ...")` sits inside
`if self.debug:`, so with `debug` unset every load exception is swallowed
and `manifest_data` stays `None`. -/
def loadStep (env : Env) (debug : Bool) (file : String) : Except VError (Option Manifest) :=
  match tryLoad env file with
  | .ok md => .ok md
  | .error _ => if debug then .error (.couldNotOpen file) else .ok none

/-- The six candidate paths tried for one search directory
(lines 187-193 of `_find_manifest_file`). -/
def tryFilesFor (d pkgVer pkg : String) : List String :=
  [ joinPath d pkgVer ++ ".json",
    joinPath d pkgVer ++ "-spdx.json",
    joinPath d pkgVer ++ ".spdx.json",
    joinPath (joinPath d pkg) (pkgVer ++ ".json"),
    joinPath (joinPath d pkg) (pkgVer ++ "-spdx.json"),
    joinPath (joinPath d pkg) (pkgVer ++ ".spdx.json") ]

/-- Loop of `_find_manifest_file` over the search directories (lines
181-198).  `pkg_ver.split("-")[1]` raises `IndexError` when the pre-colon
segment of the element id contains no hyphen. -/
def collectFiles (env : Env) (elemId : String) : List String → Except VError (List String)
  | [] => .ok []
  | d :: ds =>
    let pkgVer := splitHead elemId ':'
    let parts := splitOnChar '-' pkgVer.toList
    match parts[1]? with
    | none => .error .indexError
    | some _ =>
      let pkg : String := ⟨parts.headD []⟩
      let here := (tryFilesFor d pkgVer pkg).filter env.isFile
      match collectFiles env elemId ds with
      | .error e => .error e
      | .ok rest => .ok (here ++ rest)

/-- `_find_manifest_file` (lines 177-210): collect the existing candidates
over all directories, then demand exactly one. -/
def findManifestFile (env : Env) (elemId : String) : Except VError String :=
  match collectFiles env elemId env.spdxDirs with
  | .error e => .error e
  | .ok files =>
    if files.length = 0 then .error (.manifestNotFound elemId)
    else if files.length > 1 then .error (.ambiguousManifest elemId files.length)
    else .ok (files.headD "")

/-- Line 136: the stripped colon-prefix of an `externalDocumentRefs`
entry's `externalDocumentId`. -/
def docRefIdOf (dr : ExternalDocRef) : String :=
  pyReplace (splitHead dr.externalDocumentId ':') "DocumentRef-" ""

/-- Inner loop over `externalDocumentRefs` (lines 135-145): for every entry
whose stripped colon-prefix equals `extDocRef`, hash the resolved file with
the entry's algorithm and compare with the declared value.  The boolean
accumulator is `ext_doc_ref_found`; each digest computation is recorded in
the ghost `hashCalls` trace. -/
def checkRefs (env : Env) (elemId f extDocRef : String) :
    List ExternalDocRef → Bool → SState → Except VError (Bool × SState)
  | [], found, s => .ok (found, s)
  | dr :: drs, found, s =>
    if extDocRef = docRefIdOf dr then
      let fCheckSum := env.hash f dr.checksum.algorithm
      let s' := { s with hashCalls := s.hashCalls ++ [⟨elemId, f, dr.checksum.algorithm⟩] }
      if fCheckSum ≠ dr.checksum.checksumValue then
        .error (.checksumMismatch f dr.checksum.checksumValue fCheckSum)
      else checkRefs env elemId f extDocRef drs true s'
    else checkRefs env elemId f extDocRef drs found s

/-- Loop body of lines 214-217 of `_validate_related_elem`. -/
def relatedElemFound (md : Manifest) (item : String) : Bool :=
  md.packages.any (fun p => p.SPDXID = item)

/-- Loop of lines 163-168: scan the inner manifest's packages for one whose
`name + ":" + SPDXID` equals the element id. -/
def backRefFound (inner : Manifest) (elemId : String) : Bool :=
  inner.packages.foldl
    (fun acc p => if inner.name ++ ":" ++ p.SPDXID = elemId then true else acc) false

/-- Body of the `DYNAMIC_LINK` branch after the `checked_elements` guard
(lines 105-172), parameterised by the recursive call `vf` (line 157's
`self.validate_file(f, recursive)`): related-element check, resolution,
checksum verification, recursion, back-reference check, and finally the
append to `checked_elements`. -/
def handleLinkF (vf : String → SState → Except VError (Option Manifest × SState))
    (env : Env) (elemId relatedElem : String) (md : Manifest) (file : String)
    (s : SState) : Except VError SState :=
  if ¬ relatedElemFound md relatedElem then .error (.relatedElemNotFound relatedElem)
  else
    match findManifestFile env elemId with
    | .error e => .error e
    | .ok f =>
      match md.externalDocumentRefs with
      | none => .error (.processExit 1)
      | some refs =>
        match checkRefs env elemId f (splitHead elemId ':') refs false s with
        | .error e => .error e
        | .ok (found, s₂) =>
          if ¬ found then .error (.extDocRefNotFound (splitHead elemId ':') file)
          else
            match vf f s₂ with
            | .error e => .error e
            | .ok (innerOpt, s₃) =>
              match innerOpt with
              | none => .error .typeError
              | some inner =>
                if backRefFound inner elemId then
                  .ok { s₃ with checked := s₃.checked ++ [elemId] }
                else .error (.backRefNotFound elemId f)

/-- The `for relationship in manifest_data['relationships']` loop (lines
93-172), parameterised by the recursive call `vf`.  Non-`DYNAMIC_LINK`
relationships are inert; an element id already in `checked_elements` is
skipped before any verification work. -/
def processRelsF (vf : String → SState → Except VError (Option Manifest × SState))
    (env : Env) (md : Manifest) (file : String) :
    List Relationship → SState → Except VError SState
  | [], s => .ok s
  | r :: rs, s =>
    if r.relationshipType = "DYNAMIC_LINK" then
      let elemId := pyReplace r.spdxElementId "DocumentRef-" ""
      if s.checked.contains elemId then processRelsF vf env md file rs s
      else
        match handleLinkF vf env elemId r.relatedSpdxElement md file s with
        | .error e => .error e
        | .ok s' => processRelsF vf env md file rs s'
    else processRelsF vf env md file rs s

/-- `validate_file(spdx_file, recursive)` (lines 54-175) with explicit fuel:
load, retain the first loaded manifest as the session's, schema-check,
return when non-recursive or when `relationships` is absent, else walk the
relationships.  The recursive call at line 157 runs on the remaining fuel;
`fuelOut` for every fuel therefore means the Python recursion is unbounded. -/
def validateFile (env : Env) (debug : Bool) :
    Nat → String → Bool → SState → Except VError (Option Manifest × SState)
  | 0, _, _, _ => .error .fuelOut
  | fuel + 1, file, recursive, s =>
    match loadStep env debug file with
    | .error e => .error e
    | .ok mdOpt =>
      let s₁ := { s with topManifest := if s.topManifest.isNone then mdOpt else s.topManifest }
      if ¬ env.schemaOk mdOpt then .error .schemaViolation
      else if ¬ recursive then .ok (mdOpt, s₁)
      else
        match mdOpt with
        | none => .error .typeError
        | some md =>
          match md.relationships with
          | none => .ok (some md, s₁)
          | some rels =>
            match processRelsF (fun f s => validateFile env debug fuel f true s)
                env md file rels s₁ with
            | .error e => .error e
            | .ok s₂ => .ok (some md, s₂)

/-! ### Concrete fixtures -/

/-- Root manifest of the acyclic fixture: one `DYNAMIC_LINK` relationship to
the external package `libfoo-1:X`, with a matching external document
reference pinning checksum `"h"`. -/
def mRoot : Manifest :=
  { name := "root", packages := [⟨"P"⟩],
    relationships := some [⟨"DYNAMIC_LINK", "DocumentRef-libfoo-1:X", "P"⟩],
    externalDocumentRefs := some [⟨"DocumentRef-libfoo-1", ⟨"SHA1", "h"⟩⟩] }

/-- Inner manifest of the acyclic fixture, defining package `X`. -/
def mFoo : Manifest :=
  { name := "libfoo-1", packages := [⟨"X"⟩], relationships := none,
    externalDocumentRefs := none }

/-- Acyclic fixture environment: `root.json` parses to `mRoot`,
`./libfoo-1.json` (the only file on disk) parses to `mFoo`, every digest is
`"h"`. -/
def envAcy : Env :=
  { spdxDirs := ["."],
    isFile := fun p => p = "./libfoo-1.json",
    openOk := fun _ => true,
    readYaml := fun _ => .error (),
    readJson := fun p =>
      if p = "root.json" then .ok (some mRoot)
      else if p = "./libfoo-1.json" then .ok (some mFoo)
      else .error (),
    schemaOk := fun _ => true,
    hash := fun _ _ => "h" }

/-- First manifest of the cyclic fixture: links to `libb-1:X`. -/
def mA : Manifest :=
  { name := "liba-1", packages := [⟨"P"⟩],
    relationships := some [⟨"DYNAMIC_LINK", "libb-1:X", "P"⟩],
    externalDocumentRefs := some [⟨"DocumentRef-libb-1", ⟨"SHA1", "h"⟩⟩] }

/-- Second manifest of the cyclic fixture: links back to `liba-1:X`. -/
def mB : Manifest :=
  { name := "libb-1", packages := [⟨"P"⟩],
    relationships := some [⟨"DYNAMIC_LINK", "liba-1:X", "P"⟩],
    externalDocumentRefs := some [⟨"DocumentRef-liba-1", ⟨"SHA1", "h"⟩⟩] }

/-- Cyclic fixture environment: `./liba-1.json` and `./libb-1.json` exist
and reference each other; all checksums agree. -/
def envCyc : Env :=
  { spdxDirs := ["."],
    isFile := fun p => p = "./liba-1.json" ∨ p = "./libb-1.json",
    openOk := fun _ => true,
    readYaml := fun _ => .error (),
    readJson := fun p =>
      if p = "./liba-1.json" then .ok (some mA)
      else if p = "./libb-1.json" then .ok (some mB)
      else .error (),
    schemaOk := fun _ => true,
    hash := fun _ _ => "h" }

/-- Root manifest with a `DYNAMIC_LINK` relationship but no
`externalDocumentRefs` key at all. -/
def mNoRefs : Manifest :=
  { name := "root", packages := [⟨"P"⟩],
    relationships := some [⟨"DYNAMIC_LINK", "libfoo-1:X", "P"⟩],
    externalDocumentRefs := none }

/-- Environment for the missing-`externalDocumentRefs` run: the referenced
manifest file exists and resolves cleanly, so the walk reaches the
`externalDocumentRefs` lookup. -/
def envNoRefs : Env :=
  { spdxDirs := ["."],
    isFile := fun p => p = "./libfoo-1.json",
    openOk := fun _ => true,
    readYaml := fun _ => .error (),
    readJson := fun p =>
      if p = "root.json" then .ok (some mNoRefs)
      else if p = "./libfoo-1.json" then .ok (some mFoo)
      else .error (),
    schemaOk := fun _ => true,
    hash := fun _ _ => "h" }

/-- Environment in which every file opens but no parse succeeds, and the
schema rejects Python `None`: exercises the load-error paths. -/
def envSwallow : Env :=
  { spdxDirs := ["."],
    isFile := fun _ => false,
    openOk := fun _ => true,
    readYaml := fun _ => .error (),
    readJson := fun _ => .error (),
    schemaOk := fun md => md.isSome,
    hash := fun _ _ => "" }

/-- Environment matching the spec's resolution-determinism example: both
`./libfoo-1.2.json` and `./libfoo/libfoo-1.2.json` exist. -/
def envAmb : Env :=
  { spdxDirs := ["."],
    isFile := fun p => p = "./libfoo-1.2.json" ∨ p = "./libfoo/libfoo-1.2.json",
    openOk := fun _ => true,
    readYaml := fun _ => .error (),
    readJson := fun _ => .error (),
    schemaOk := fun _ => true,
    hash := fun _ _ => "" }

/-- Manifest whose relationships contain no `DYNAMIC_LINK` entry. -/
def mPlain : Manifest :=
  { name := "plain", packages := [⟨"P"⟩],
    relationships := some [⟨"DEPENDS_ON", "DocumentRef-x:Y", "P"⟩],
    externalDocumentRefs := none }

/-- Environment serving `mPlain` at `plain.json`. -/
def envPlain : Env :=
  { spdxDirs := ["."],
    isFile := fun _ => false,
    openOk := fun _ => true,
    readYaml := fun _ => .error (),
    readJson := fun p => if p = "plain.json" then .ok (some mPlain) else .error (),
    schemaOk := fun _ => true,
    hash := fun _ _ => "" }

/-! ### Claim C1 -/

/-- C1.  A manifest with a `DYNAMIC_LINK` relationship but no
`externalDocumentRefs` key does not fail with a structured validation
error: once the relationship's related element and manifest file resolve,
`validate_file` prints debug text and calls `exit(1)`, terminating the
process (modelled as `VError.processExit 1`), contradicting the claimed
`MissingExternalDocRef` error. -/
theorem missing_extDocRefs_process_exit :
    validateFile envNoRefs false 2 "root.json" true initState =
      .error (.processExit 1) ∧
    validateFile envNoRefs true 2 "root.json" true initState =
      .error (.processExit 1) := by
  decide

/-! ### Claim C3 -/

/-- C3.  The `raise SPDXValidationException("Could not open file: ...")`
sits inside `if self.debug:`, so with `debug` unset a load failure — an
unsupported suffix (`data.txt`) or an unparseable `.json` — is swallowed:
the load step yields Python `None` and `validate_file` continues, the
eventual failure being a schema violation on `None`, not a file error.
With `debug` set, even the unsupported-suffix case surfaces as
`"Could not open file"` rather than the unsupported-format error, because
the in-`try` raise is caught by the enclosing `except`. -/
theorem load_errors_swallowed_without_debug :
    loadStep envSwallow false "data.txt" = .ok none ∧
    loadStep envSwallow false "broken.json" = .ok none ∧
    loadStep envSwallow true "data.txt" = .error (.couldNotOpen "data.txt") ∧
    loadStep envSwallow true "broken.json" = .error (.couldNotOpen "broken.json") ∧
    validateFile envSwallow false 1 "data.txt" false initState =
      .error .schemaViolation := by
  decide

/-! ### Claim C2 -/

/-- State evolution across one `DYNAMIC_LINK` step just before the
recursive call of the cyclic fixture: the session manifest is retained if
unset, and one checksum-provider invocation is recorded.
`checked_elements` is untouched — the append only happens after the
recursive call returns. -/
def stepState (m : Manifest) (hc : HashCall) (s : SState) : SState :=
  { s with topManifest := if s.topManifest.isNone then some m else s.topManifest,
           hashCalls := s.hashCalls ++ [hc] }

theorem checkRefs_cycB (s : SState) :
    checkRefs envCyc "libb-1:X" "./libb-1.json" "libb-1"
      [⟨"DocumentRef-libb-1", ⟨"SHA1", "h"⟩⟩] false s =
    .ok (true, { s with hashCalls := s.hashCalls ++ [⟨"libb-1:X", "./libb-1.json", "SHA1"⟩] }) := by
  have hdoc : docRefIdOf ⟨"DocumentRef-libb-1", ⟨"SHA1", "h"⟩⟩ = "libb-1" := by decide
  simp [checkRefs, hdoc, envCyc]

theorem checkRefs_cycA (s : SState) :
    checkRefs envCyc "liba-1:X" "./liba-1.json" "liba-1"
      [⟨"DocumentRef-liba-1", ⟨"SHA1", "h"⟩⟩] false s =
    .ok (true, { s with hashCalls := s.hashCalls ++ [⟨"liba-1:X", "./liba-1.json", "SHA1"⟩] }) := by
  have hdoc : docRefIdOf ⟨"DocumentRef-liba-1", ⟨"SHA1", "h"⟩⟩ = "liba-1" := by decide
  simp [checkRefs, hdoc, envCyc]

/-- One step of the cyclic walk starting from `./liba-1.json`: with
`"libb-1:X"` not yet checked, the outcome is whatever the recursive call on
`./libb-1.json` produces when the latter errors. -/
theorem cyc_stepA (fuel : Nat) (s : SState) (e : VError)
    (hch : s.checked.contains "libb-1:X" = false)
    (hrec : validateFile envCyc false fuel "./libb-1.json" true
      (stepState mA ⟨"libb-1:X", "./libb-1.json", "SHA1"⟩ s) = .error e) :
    validateFile envCyc false (fuel + 1) "./liba-1.json" true s = .error e := by
  have hload : loadStep envCyc false "./liba-1.json" = .ok (some mA) := by decide
  have hstrip : pyReplace "libb-1:X" "DocumentRef-" "" = "libb-1:X" := by decide
  have hrel : relatedElemFound mA "P" = true := by decide
  have hfind : findManifestFile envCyc "libb-1:X" = .ok "./libb-1.json" := by decide
  have hsplit : splitHead "libb-1:X" ':' = "libb-1" := by decide
  have hrels : mA.relationships = some [⟨"DYNAMIC_LINK", "libb-1:X", "P"⟩] := rfl
  have hrefs : mA.externalDocumentRefs = some [⟨"DocumentRef-libb-1", ⟨"SHA1", "h"⟩⟩] := rfl
  have hschema : envCyc.schemaOk (some mA) = true := rfl
  simp only [validateFile, hload, hschema, processRelsF, handleLinkF, hstrip, hrel, hfind,
    hsplit, hrels, hrefs, hch, checkRefs_cycB]
  simp only [stepState, Option.isNone_iff_eq_none] at hrec
  simp [hrec]

/-- One step of the cyclic walk starting from `./libb-1.json`, symmetric to
`cyc_stepA`. -/
theorem cyc_stepB (fuel : Nat) (s : SState) (e : VError)
    (hch : s.checked.contains "liba-1:X" = false)
    (hrec : validateFile envCyc false fuel "./liba-1.json" true
      (stepState mB ⟨"liba-1:X", "./liba-1.json", "SHA1"⟩ s) = .error e) :
    validateFile envCyc false (fuel + 1) "./libb-1.json" true s = .error e := by
  have hload : loadStep envCyc false "./libb-1.json" = .ok (some mB) := by decide
  have hstrip : pyReplace "liba-1:X" "DocumentRef-" "" = "liba-1:X" := by decide
  have hrel : relatedElemFound mB "P" = true := by decide
  have hfind : findManifestFile envCyc "liba-1:X" = .ok "./liba-1.json" := by decide
  have hsplit : splitHead "liba-1:X" ':' = "liba-1" := by decide
  have hrels : mB.relationships = some [⟨"DYNAMIC_LINK", "liba-1:X", "P"⟩] := rfl
  have hrefs : mB.externalDocumentRefs = some [⟨"DocumentRef-liba-1", ⟨"SHA1", "h"⟩⟩] := rfl
  have hschema : envCyc.schemaOk (some mB) = true := rfl
  simp only [validateFile, hload, hschema, processRelsF, handleLinkF, hstrip, hrel, hfind,
    hsplit, hrels, hrefs, hch, checkRefs_cycA]
  simp only [stepState, Option.isNone_iff_eq_none] at hrec
  simp [hrec]

/-- Mutual fuel induction for the cyclic fixture: as long as neither element
id has been checked, validation of either manifest exhausts every fuel
bound. -/
theorem cyc_both_fuelOut : ∀ fuel (s : SState),
    s.checked.contains "libb-1:X" = false →
    s.checked.contains "liba-1:X" = false →
    validateFile envCyc false fuel "./liba-1.json" true s = .error .fuelOut ∧
    validateFile envCyc false fuel "./libb-1.json" true s = .error .fuelOut := by
  intro fuel
  induction fuel with
  | zero => intro s _ _; exact ⟨rfl, rfl⟩
  | succ n ih =>
    intro s hb ha
    constructor
    · exact cyc_stepA n s .fuelOut hb
        ((ih (stepState mA ⟨"libb-1:X", "./libb-1.json", "SHA1"⟩ s) hb ha).2)
    · exact cyc_stepB n s .fuelOut ha
        ((ih (stepState mB ⟨"liba-1:X", "./liba-1.json", "SHA1"⟩ s) hb ha).1)

/-- C2.  On the cyclic fixture — `./liba-1.json` and `./libb-1.json`
referencing each other through `DYNAMIC_LINK` relationships with matching
external document references — the recursive walk does not terminate: every
fuel bound is exhausted, because `checked_elements` only receives an element
id after the recursive call for it returns, so the guard never fires inside
the cycle.  This refutes the claimed cycle safety. -/
theorem cycle_walk_never_terminates (fuel : Nat) (s : SState)
    (hb : s.checked.contains "libb-1:X" = false)
    (ha : s.checked.contains "liba-1:X" = false) :
    validateFile envCyc false fuel "./liba-1.json" true s = .error .fuelOut :=
  (cyc_both_fuelOut fuel s hb ha).1

/-- C2, witness: nine levels of fuel from a fresh session are all consumed. -/
theorem cycle_walk_never_terminates_witness :
    validateFile envCyc false 9 "./liba-1.json" true initState = .error .fuelOut :=
  cycle_walk_never_terminates 9 initState (by decide) (by decide)

/-! ### Claim C4 -/

theorem splitOnChar_ne_nil (c : Char) : ∀ l, splitOnChar c l ≠ [] := by
  intro l
  induction l with
  | nil => simp [splitOnChar]
  | cons x xs ih =>
    simp only [splitOnChar]
    split
    · simp
    · cases hsp : splitOnChar c xs with
      | nil => exact absurd hsp ih
      | cons h t => simp

theorem splitOnChar_of_not_mem (c : Char) : ∀ l, c ∉ l → splitOnChar c l = [l] := by
  intro l
  induction l with
  | nil => intro _; rfl
  | cons x xs ih =>
    intro hm
    have hx : ¬ x = c := fun hcx => hm (by simp [hcx])
    have hxs : c ∉ xs := fun hcm => hm (by simp [hcm])
    simp only [splitOnChar, if_neg hx, ih hxs]

theorem two_le_splitOnChar_of_mem (c : Char) : ∀ l, c ∈ l →
    2 ≤ (splitOnChar c l).length := by
  intro l
  induction l with
  | nil => intro hm; cases hm
  | cons x xs ih =>
    intro hm
    simp only [splitOnChar]
    split
    · have := splitOnChar_ne_nil c xs
      cases hsp : splitOnChar c xs with
      | nil => exact absurd hsp this
      | cons h t => simp
    · rename_i hx
      have hcx : c ∈ xs := by
        rcases List.mem_cons.mp hm with h | h
        · exact absurd h.symm hx
        · exact h
      cases hsp : splitOnChar c xs with
      | nil => exact absurd hsp (splitOnChar_ne_nil c xs)
      | cons h t =>
        have := ih hcx
        rw [hsp] at this
        simpa using this

/-- With a hyphen in the pre-colon segment, the directory loop of
`_find_manifest_file` collects, in order, the existing candidates of every
search directory. -/
theorem collectFiles_ok (env : Env) (elemId : String)
    (h2 : 2 ≤ (splitOnChar '-' (splitHead elemId ':').toList).length) :
    ∀ ds, collectFiles env elemId ds =
      .ok ((ds.map (fun d =>
        (tryFilesFor d (splitHead elemId ':')
          ⟨(splitOnChar '-' (splitHead elemId ':').toList).headD []⟩).filter
            env.isFile)).flatten) := by
  intro ds
  induction ds with
  | nil => rfl
  | cons d ds ih =>
    simp only [collectFiles, List.getElem?_eq_getElem (by omega : 1 <
      (splitOnChar '-' (splitHead elemId ':').toList).length), ih]
    simp

/-- Spec-side restatement of C4's collection step: per search directory,
the six candidates that exist as files, all directories combined in order. -/
def candidateMatches (env : Env) (elemId : String) : List String :=
  (env.spdxDirs.map (fun d =>
    (tryFilesFor d (splitHead elemId ':')
      ⟨(splitOnChar '-' (splitHead elemId ':').toList).headD []⟩).filter
        env.isFile)).flatten

/-- C4.  With a well-formed element id, `_find_manifest_file` considers the
six candidate paths per directory, keeps every candidate that exists as a
file across all directories combined, returns the match when it is unique,
fails with the manifest-not-found error on zero matches and with the
ambiguous-manifest error (carrying the total count) on two or more, even
when the matches come from different directories. -/
theorem resolver_unique_match (env : Env) (elemId : String)
    (h2 : 2 ≤ (splitOnChar '-' (splitHead elemId ':').toList).length) :
    ((candidateMatches env elemId).length = 1 →
      findManifestFile env elemId = .ok ((candidateMatches env elemId).headD "")) ∧
    ((candidateMatches env elemId).length = 0 →
      findManifestFile env elemId = .error (.manifestNotFound elemId)) ∧
    (1 < (candidateMatches env elemId).length →
      findManifestFile env elemId =
        .error (.ambiguousManifest elemId (candidateMatches env elemId).length)) := by
  have hco : collectFiles env elemId env.spdxDirs = .ok (candidateMatches env elemId) :=
    collectFiles_ok env elemId h2 env.spdxDirs
  refine ⟨fun h1 => ?_, fun h0 => ?_, fun hgt => ?_⟩ <;>
    simp only [findManifestFile, hco]
  · simp [h1]
  · simp [h0]
  · rw [if_pos hgt, if_neg (by omega)]

/-- C4, witness: the spec's resolution-determinism example — both
`./libfoo-1.2.json` and `./libfoo/libfoo-1.2.json` exist for element id
`libfoo-1.2:SPDXID-Package` — fails with the ambiguous-manifest error of
count 2. -/
theorem resolver_unique_match_witness :
    findManifestFile envAmb "libfoo-1.2:SPDXID-Package" =
      .error (.ambiguousManifest "libfoo-1.2:SPDXID-Package" 2) := by
  have h := (resolver_unique_match envAmb "libfoo-1.2:SPDXID-Package" (by decide)).2.2
    (by decide)
  simpa using h

/-! ### Claim C5 -/

/-- Modelled from the spec claim C5: strip only a leading `DocumentRef-`
marker from an element id, leaving later occurrences intact. -/
def stripLeadingOnly (s : String) : String :=
  if ("DocumentRef-".toList).isPrefixOf s.toList then ⟨s.toList.drop 12⟩ else s

/-- C5 counterexample.  On `"DocumentRef-a-DocumentRef-b:X"`, the code's
`replace("DocumentRef-", "")` removes both occurrences and yields
`"a-b:X"`, while the claimed leading-marker strip would yield
`"a-DocumentRef-b:X"`. -/
theorem docRef_strip_counterexample :
    pyReplace "DocumentRef-a-DocumentRef-b:X" "DocumentRef-" "" = "a-b:X" ∧
    stripLeadingOnly "DocumentRef-a-DocumentRef-b:X" = "a-DocumentRef-b:X" ∧
    ("a-b:X" : String) ≠ "a-DocumentRef-b:X" := by
  decide

/-- Split a character list at every leftmost non-overlapping occurrence of
`pat`, dropping the occurrences: a reformulation, in the style of Python's
`s.split(pat)`, of what removing every occurrence of `pat` leaves behind.
Fuelled like `replaceFuel`. -/
def splitFuel (pat : List Char) : Nat → List Char → List (List Char)
  | 0, l => [l]
  | _ + 1, [] => [[]]
  | n + 1, c :: cs =>
    if pat.isPrefixOf (c :: cs) ∧ pat ≠ [] then
      [] :: splitFuel pat n (List.drop (pat.length - 1) cs)
    else
      match splitFuel pat n cs with
      | [] => [[c]]
      | h :: t => (c :: h) :: t

theorem splitFuel_ne_nil (pat : List Char) : ∀ n l, splitFuel pat n l ≠ [] := by
  intro n
  induction n with
  | zero => intro l; simp [splitFuel]
  | succ n ih =>
    intro l
    cases l with
    | nil => simp [splitFuel]
    | cons c cs =>
      simp only [splitFuel]
      split
      · simp
      · cases hsp : splitFuel pat n cs with
        | nil => exact absurd hsp (ih cs)
        | cons h t => simp

theorem splitFuel_flatten (pat : List Char) :
    ∀ n l, (splitFuel pat n l).flatten = replaceFuel pat [] n l := by
  intro n
  induction n with
  | zero => intro l; simp [splitFuel, replaceFuel]
  | succ n ih =>
    intro l
    cases l with
    | nil => simp [splitFuel, replaceFuel]
    | cons c cs =>
      simp only [splitFuel, replaceFuel]
      split
      · simpa using ih (List.drop (pat.length - 1) cs)
      · cases hsp : splitFuel pat n cs with
        | nil => exact absurd hsp (splitFuel_ne_nil pat n cs)
        | cons h t =>
          have := ih cs
          rw [hsp] at this
          simpa using this

/-- C5 amended.  The element id used for the rest of the walk equals
`spdxElementId` with every leftmost non-overlapping occurrence of
`DocumentRef-` removed — the concatenation of the pieces left by splitting
on the marker — not only a leading one; `relatedSpdxElement` is used
verbatim: the related-element check compares it unchanged against the
current manifest's package ids, and on failure the error carries it
unchanged. -/
theorem docRef_strip_removes_every_occurrence :
    (∀ s : String, pyReplace s "DocumentRef-" "" =
      ⟨(splitFuel "DocumentRef-".toList s.toList.length s.toList).flatten⟩) ∧
    (∀ vf env elemId relatedElem md file s,
      relatedElemFound md relatedElem = false →
      handleLinkF vf env elemId relatedElem md file s =
        .error (.relatedElemNotFound relatedElem)) := by
  constructor
  · intro s
    rw [pyReplace, splitFuel_flatten]
    rfl
  · intro vf env elemId relatedElem md file s h
    simp [handleLinkF, h]

/-- C5 amended, witness: the strip applied to a doubly-marked id, and the
verbatim related-element failure on a package id absent from `mFoo`. -/
theorem docRef_strip_removes_every_occurrence_witness :
    pyReplace "DocumentRef-a-DocumentRef-b:X" "DocumentRef-" "" =
      ⟨(splitFuel "DocumentRef-".toList
        "DocumentRef-a-DocumentRef-b:X".toList.length
        "DocumentRef-a-DocumentRef-b:X".toList).flatten⟩ ∧
    handleLinkF (fun _ s => .ok (none, s)) envAcy "e" "Q" mFoo "f.json" initState =
      .error (.relatedElemNotFound "Q") :=
  ⟨docRef_strip_removes_every_occurrence.1 "DocumentRef-a-DocumentRef-b:X",
   docRef_strip_removes_every_occurrence.2 (fun _ s => .ok (none, s))
     envAcy "e" "Q" mFoo "f.json" initState (by decide)⟩

/-! ### Claim C6 -/

theorem checkRefs_ok_of_all (env : Env) (elemId f edr : String) :
    ∀ (refs : List ExternalDocRef) (found : Bool) (s : SState),
    (∀ dr ∈ refs, docRefIdOf dr = edr →
      env.hash f dr.checksum.algorithm = dr.checksum.checksumValue) →
    ∃ s', checkRefs env elemId f edr refs found s =
      .ok (found || refs.any (fun dr => edr == docRefIdOf dr), s') := by
  intro refs
  induction refs with
  | nil => intro found s _; exact ⟨s, by simp [checkRefs]⟩
  | cons dr drs ih =>
    intro found s hall
    by_cases hm : edr = docRefIdOf dr
    · have hok := hall dr (by simp) hm.symm
      obtain ⟨s', hs'⟩ := ih true
        { s with hashCalls := s.hashCalls ++ [⟨elemId, f, dr.checksum.algorithm⟩] }
        (fun d hd h => hall d (by simp [hd]) h)
      refine ⟨s', ?_⟩
      simp only [checkRefs, if_pos hm, if_neg (not_not_intro hok), hs']
      have hbeq : (edr == docRefIdOf dr) = true := by simp [hm]
      simp [List.any_cons, hbeq]
    · obtain ⟨s', hs'⟩ := ih found s (fun d hd h => hall d (by simp [hd]) h)
      refine ⟨s', ?_⟩
      simp only [checkRefs, if_neg hm, hs']
      have hbeq : (edr == docRefIdOf dr) = false := beq_eq_false_iff_ne.mpr hm
      simp [List.any_cons, hbeq]

theorem checkRefs_error_of_bad (env : Env) (elemId f edr : String) :
    ∀ (refs : List ExternalDocRef) (found : Bool) (s : SState),
    (∃ dr ∈ refs, docRefIdOf dr = edr ∧
      env.hash f dr.checksum.algorithm ≠ dr.checksum.checksumValue) →
    ∃ dr ∈ refs, docRefIdOf dr = edr ∧
      env.hash f dr.checksum.algorithm ≠ dr.checksum.checksumValue ∧
      checkRefs env elemId f edr refs found s =
        .error (.checksumMismatch f dr.checksum.checksumValue
          (env.hash f dr.checksum.algorithm)) := by
  intro refs
  induction refs with
  | nil => intro found s hbad; simp at hbad
  | cons dr drs ih =>
    intro found s hbad
    by_cases hm : edr = docRefIdOf dr
    · by_cases hv : env.hash f dr.checksum.algorithm = dr.checksum.checksumValue
      · obtain ⟨d, hd, hid, hne⟩ := hbad
        rcases List.mem_cons.mp hd with rfl | hd'
        · exact absurd hv hne
        · obtain ⟨d', hd'', hid', hne', heq⟩ := ih true
            { s with hashCalls := s.hashCalls ++ [⟨elemId, f, dr.checksum.algorithm⟩] }
            ⟨d, hd', hid, hne⟩
          exact ⟨d', by simp [hd''], hid', hne', by
            simp only [checkRefs, if_pos hm, if_neg (not_not_intro hv)]
            exact heq⟩
      · exact ⟨dr, by simp, hm.symm, hv, by simp only [checkRefs, if_pos hm, if_pos hv]⟩
    · obtain ⟨d, hd, hid, hne⟩ := hbad
      rcases List.mem_cons.mp hd with rfl | hd'
      · exact absurd hid.symm hm
      · obtain ⟨d', hd'', hid', hne', heq⟩ := ih found s ⟨d, hd', hid, hne⟩
        exact ⟨d', by simp [hd''], hid', hne', by
          simp only [checkRefs, if_neg hm]
          exact heq⟩

/-- C6.  When some `externalDocumentRefs` entry matches the relationship's
`extDocRef`, the checksum gate passes — the loop ends with
`ext_doc_ref_found` true, letting validation of the relationship proceed —
exactly when every matching entry's declared checksum value equals, as a
string, the resolved file's digest computed with that entry's declared
algorithm; on any divergence the loop raises the checksum-mismatch error
carrying the expected and actual digests (so any change to the file that
alters its digest flips the outcome). -/
theorem checksum_gate (env : Env) (elemId f edr : String)
    (refs : List ExternalDocRef) (s : SState)
    (hex : ∃ dr ∈ refs, docRefIdOf dr = edr) :
    ((∃ s', checkRefs env elemId f edr refs false s = .ok (true, s')) ↔
      (∀ dr ∈ refs, docRefIdOf dr = edr →
        env.hash f dr.checksum.algorithm = dr.checksum.checksumValue)) ∧
    ((∃ dr ∈ refs, docRefIdOf dr = edr ∧
        env.hash f dr.checksum.algorithm ≠ dr.checksum.checksumValue) →
      ∃ dr ∈ refs, docRefIdOf dr = edr ∧
        env.hash f dr.checksum.algorithm ≠ dr.checksum.checksumValue ∧
        checkRefs env elemId f edr refs false s =
          .error (.checksumMismatch f dr.checksum.checksumValue
            (env.hash f dr.checksum.algorithm))) := by
  constructor
  · constructor
    · intro ⟨s', hs'⟩ dr hdr hid
      by_contra hne
      obtain ⟨d, _, _, _, heq⟩ :=
        checkRefs_error_of_bad env elemId f edr refs false s ⟨dr, hdr, hid, hne⟩
      rw [heq] at hs'
      cases hs'
    · intro hall
      obtain ⟨s', hs'⟩ := checkRefs_ok_of_all env elemId f edr refs false s hall
      refine ⟨s', ?_⟩
      rw [hs']
      obtain ⟨dr, hdr, hid⟩ := hex
      have : refs.any (fun dr => edr == docRefIdOf dr) = true :=
        List.any_eq_true.mpr ⟨dr, hdr, by simp [hid]⟩
      simp [this]
  · exact checkRefs_error_of_bad env elemId f edr refs false s

/-- C6, witness: the acyclic fixture's single matching entry with agreeing
digests passes the gate, and the iff instance holds there. -/
theorem checksum_gate_witness :
    ((∃ s', checkRefs envAcy "libfoo-1:X" "./libfoo-1.json" "libfoo-1"
        [⟨"DocumentRef-libfoo-1", ⟨"SHA1", "h"⟩⟩] false initState = .ok (true, s')) ↔
      (∀ dr ∈ [(⟨"DocumentRef-libfoo-1", ⟨"SHA1", "h"⟩⟩ : ExternalDocRef)],
        docRefIdOf dr = "libfoo-1" →
        envAcy.hash "./libfoo-1.json" dr.checksum.algorithm = dr.checksum.checksumValue)) ∧
    ((∃ dr ∈ [(⟨"DocumentRef-libfoo-1", ⟨"SHA1", "h"⟩⟩ : ExternalDocRef)],
        docRefIdOf dr = "libfoo-1" ∧
        envAcy.hash "./libfoo-1.json" dr.checksum.algorithm ≠ dr.checksum.checksumValue) →
      ∃ dr ∈ [(⟨"DocumentRef-libfoo-1", ⟨"SHA1", "h"⟩⟩ : ExternalDocRef)],
        docRefIdOf dr = "libfoo-1" ∧
        envAcy.hash "./libfoo-1.json" dr.checksum.algorithm ≠ dr.checksum.checksumValue ∧
        checkRefs envAcy "libfoo-1:X" "./libfoo-1.json" "libfoo-1"
          [⟨"DocumentRef-libfoo-1", ⟨"SHA1", "h"⟩⟩] false initState =
          .error (.checksumMismatch "./libfoo-1.json" dr.checksum.checksumValue
            (envAcy.hash "./libfoo-1.json" dr.checksum.algorithm))) :=
  checksum_gate envAcy "libfoo-1:X" "./libfoo-1.json" "libfoo-1"
    [⟨"DocumentRef-libfoo-1", ⟨"SHA1", "h"⟩⟩] initState (by decide)

/-! ### Claim C7 -/

theorem backRefFound_iff (inner : Manifest) (elemId : String) :
    backRefFound inner elemId = true ↔
      ∃ p ∈ inner.packages, inner.name ++ ":" ++ p.SPDXID = elemId := by
  have key : ∀ (l : List Package) (acc : Bool),
      l.foldl (fun acc p => if inner.name ++ ":" ++ p.SPDXID = elemId then true else acc) acc =
      (acc || l.any (fun p => inner.name ++ ":" ++ p.SPDXID == elemId)) := by
    intro l
    induction l with
    | nil => intro acc; simp
    | cons p ps ih =>
      intro acc
      simp only [List.foldl_cons]
      by_cases hp : inner.name ++ ":" ++ p.SPDXID = elemId
      · rw [if_pos hp, ih]
        have hg : (inner.name ++ ":" ++ p.SPDXID == elemId) = true := by simp [hp]
        simp [List.any_cons, hg]
      · rw [if_neg hp, ih]
        have hg : (inner.name ++ ":" ++ p.SPDXID == elemId) = false :=
          beq_eq_false_iff_ne.mpr hp
        simp [List.any_cons, hg]
  rw [backRefFound, key]
  simp

/-- C7.  When the related-element check, resolution and checksum gate
succeed and the recursive validation of the resolved file yields the inner
manifest, the `DYNAMIC_LINK` step succeeds — recording the element id —
precisely if some package of the inner manifest satisfies
`inner.name ++ ":" ++ SPDXID = elemId`, and fails with the unresolved
back-reference error carrying the element id and resolved path if none
does. -/
theorem back_reference_check (env : Env) (dbg : Bool) (fuel : Nat)
    (elemId relatedElem file f : String) (md inner : Manifest)
    (refs : List ExternalDocRef) (s s₂ s₃ : SState)
    (h1 : relatedElemFound md relatedElem = true)
    (h2 : findManifestFile env elemId = .ok f)
    (h3 : md.externalDocumentRefs = some refs)
    (h4 : checkRefs env elemId f (splitHead elemId ':') refs false s = .ok (true, s₂))
    (h5 : validateFile env dbg fuel f true s₂ = .ok (some inner, s₃)) :
    ((∃ p ∈ inner.packages, inner.name ++ ":" ++ p.SPDXID = elemId) →
      handleLinkF (fun f s => validateFile env dbg fuel f true s)
        env elemId relatedElem md file s =
        .ok { s₃ with checked := s₃.checked ++ [elemId] }) ∧
    ((¬ ∃ p ∈ inner.packages, inner.name ++ ":" ++ p.SPDXID = elemId) →
      handleLinkF (fun f s => validateFile env dbg fuel f true s)
        env elemId relatedElem md file s =
        .error (.backRefNotFound elemId f)) := by
  constructor
  · intro hex
    have hb : backRefFound inner elemId = true := (backRefFound_iff inner elemId).mpr hex
    simp only [handleLinkF, h1, h2, h3, h4, h5, hb]
    simp
  · intro hnex
    have hb : backRefFound inner elemId = false := by
      rcases Bool.eq_false_or_eq_true (backRefFound inner elemId) with h | h
      · exact absurd ((backRefFound_iff inner elemId).mp h) hnex
      · exact h
    simp only [handleLinkF, h1, h2, h3, h4, h5, hb]
    simp

/-- C7, witness: the acyclic fixture's back-reference
`libfoo-1:X = mFoo.name ++ ":" ++ "X"` resolves, so the step succeeds and
records the element id. -/
theorem back_reference_check_witness :
    handleLinkF (fun f s => validateFile envAcy false 1 f true s)
      envAcy "libfoo-1:X" "P" mRoot "root.json" initState =
      .ok { checked := ["libfoo-1:X"], topManifest := some mFoo,
            hashCalls := [⟨"libfoo-1:X", "./libfoo-1.json", "SHA1"⟩] } :=
  (back_reference_check envAcy false 1 "libfoo-1:X" "P" "root.json" "./libfoo-1.json"
      mRoot mFoo [⟨"DocumentRef-libfoo-1", ⟨"SHA1", "h"⟩⟩] initState
      { initState with hashCalls := [⟨"libfoo-1:X", "./libfoo-1.json", "SHA1"⟩] }
      { checked := [], topManifest := some mFoo,
        hashCalls := [⟨"libfoo-1:X", "./libfoo-1.json", "SHA1"⟩] }
      (by decide) (by decide) rfl (by decide) (by decide)).1 (by decide)

/-! ### Claim C8 -/

theorem processRelsF_no_dynlink
    (vf : String → SState → Except VError (Option Manifest × SState))
    (env : Env) (md : Manifest) (file : String) :
    ∀ (rels : List Relationship) (s : SState),
    (∀ r ∈ rels, r.relationshipType ≠ "DYNAMIC_LINK") →
    processRelsF vf env md file rels s = .ok s := by
  intro rels
  induction rels with
  | nil => intro s _; rfl
  | cons r rs ih =>
    intro s hnd
    have hr : ¬ r.relationshipType = "DYNAMIC_LINK" := hnd r (by simp)
    simp only [processRelsF, if_neg hr]
    exact ih s (fun r' hr' => hnd r' (by simp [hr']))

/-- C8.  For a manifest that loads successfully and has no `DYNAMIC_LINK`
relationship, `validate_file` in recursive mode returns exactly what
non-recursive mode returns — same manifest, same errors, same session
state — for every fuel and starting state: the relationship loop is a
no-op. -/
theorem nonrecursive_equiv (env : Env) (dbg : Bool) (file : String) (md : Manifest)
    (hload : loadStep env dbg file = .ok (some md))
    (hnd : ∀ r ∈ md.relationships.getD [], r.relationshipType ≠ "DYNAMIC_LINK") :
    ∀ (fuel : Nat) (s : SState),
    validateFile env dbg fuel file true s = validateFile env dbg fuel file false s := by
  intro fuel s
  cases fuel with
  | zero => rfl
  | succ n =>
    simp only [validateFile, hload]
    by_cases hs : env.schemaOk (some md)
    · cases hrel : md.relationships with
      | none => simp [hs, hrel]
      | some rels =>
        have hloop := processRelsF_no_dynlink
          (fun f s => validateFile env dbg n f true s) env md file rels
          { s with topManifest := if s.topManifest.isNone then some md else s.topManifest }
          (by rw [hrel] at hnd; simpa using hnd)
        simp only [Option.isNone_iff_eq_none] at hloop
        simp [hs, hrel, hloop]
    · simp [hs]

/-- C8, witness: a manifest whose only relationship is `DEPENDS_ON`
validates identically in both modes. -/
theorem nonrecursive_equiv_witness :
    validateFile envPlain false 1 "plain.json" true initState =
      validateFile envPlain false 1 "plain.json" false initState :=
  nonrecursive_equiv envPlain false "plain.json" mPlain (by decide) (by decide)
    1 initState

/-! ### Claim C9 -/

/-- Relation between the session state at the start and end of a successful
call: `checked_elements` only ever grows by appending, and every checksum
computation recorded during the call concerns an element id that was not
yet checked when the call began and is checked when it ends. -/
def sessionEvolves (s s' : SState) : Prop :=
  (∃ ce, s'.checked = s.checked ++ ce) ∧
  (∃ nc, s'.hashCalls = s.hashCalls ++ nc ∧
    ∀ c ∈ nc, c.elemId ∉ s.checked ∧ c.elemId ∈ s'.checked)

theorem sessionEvolves_refl (s : SState) : sessionEvolves s s :=
  ⟨⟨[], by simp⟩, [], by simp, fun c hc => absurd hc (List.not_mem_nil c)⟩

theorem sessionEvolves_of_same (s s' : SState)
    (hc : s'.checked = s.checked) (hh : s'.hashCalls = s.hashCalls) :
    sessionEvolves s s' :=
  ⟨⟨[], by simp [hc]⟩, [], by simp [hh], fun c hmem => absurd hmem (List.not_mem_nil c)⟩

theorem sessionEvolves_trans {s₁ s₂ s₃ : SState}
    (h12 : sessionEvolves s₁ s₂) (h23 : sessionEvolves s₂ s₃) :
    sessionEvolves s₁ s₃ := by
  obtain ⟨⟨ce1, hc1⟩, nc1, hh1, hp1⟩ := h12
  obtain ⟨⟨ce2, hc2⟩, nc2, hh2, hp2⟩ := h23
  refine ⟨⟨ce1 ++ ce2, by rw [hc2, hc1, List.append_assoc]⟩,
    nc1 ++ nc2, by rw [hh2, hh1, List.append_assoc], ?_⟩
  intro c hc
  rcases List.mem_append.mp hc with h | h
  · obtain ⟨hna, hinb⟩ := hp1 c h
    exact ⟨hna, by rw [hc2]; exact List.mem_append_left _ hinb⟩
  · obtain ⟨hna, hinb⟩ := hp2 c h
    refine ⟨fun hmem => hna ?_, hinb⟩
    rw [hc1]
    exact List.mem_append_left _ hmem

/-- The `externalDocumentRefs` loop leaves `checked_elements` untouched and
only appends digest computations for the element id being processed. -/
theorem checkRefs_state (env : Env) (elemId f edr : String) :
    ∀ (refs : List ExternalDocRef) (found : Bool) (s : SState) (bb : Bool) (s' : SState),
    checkRefs env elemId f edr refs found s = .ok (bb, s') →
    s'.checked = s.checked ∧ ∃ nc, s'.hashCalls = s.hashCalls ++ nc ∧
      ∀ c ∈ nc, c.elemId = elemId := by
  intro refs
  induction refs with
  | nil =>
    intro found s bb s' h
    simp only [checkRefs, Except.ok.injEq, Prod.mk.injEq] at h
    obtain ⟨-, hss⟩ := h
    subst hss
    exact ⟨rfl, [], by simp, fun c hc => absurd hc (List.not_mem_nil c)⟩
  | cons dr drs ih =>
    intro found s bb s' h
    simp only [checkRefs] at h
    split at h
    · split at h
      · cases h
      · obtain ⟨hch, nc, hh, hp⟩ := ih true
          { s with hashCalls := s.hashCalls ++ [⟨elemId, f, dr.checksum.algorithm⟩] }
          bb s' h
        refine ⟨hch, ⟨elemId, f, dr.checksum.algorithm⟩ :: nc, ?_, ?_⟩
        · rw [hh]
          simp
        · intro c hc
          rcases List.mem_cons.mp hc with rfl | hc'
          · rfl
          · exact hp c hc'
    · exact ih found s bb s' h

/-- A successful `DYNAMIC_LINK` step on a not-yet-checked element id
evolves the session and records the id. -/
theorem handleLinkF_evolves
    (vf : String → SState → Except VError (Option Manifest × SState))
    (env : Env) (elemId relatedElem : String) (md : Manifest) (file : String)
    (vfOk : ∀ f s m s', vf f s = .ok (m, s') → sessionEvolves s s')
    (s s' : SState) (hnotin : elemId ∉ s.checked)
    (h : handleLinkF vf env elemId relatedElem md file s = .ok s') :
    sessionEvolves s s' ∧ elemId ∈ s'.checked := by
  rw [handleLinkF] at h
  split at h
  · cases h
  · split at h
    · cases h
    · rename_i f' hff
      split at h
      · cases h
      · rename_i refs hrefs
        split at h
        · cases h
        · rename_i found s₂ hcr
          split at h
          · cases h
          · split at h
            · cases h
            · rename_i innerOpt s₃ hvf
              split at h
              · cases h
              · rename_i inner
                by_cases hbr : backRefFound inner elemId = true
                · rw [if_pos hbr] at h
                  simp only [Except.ok.injEq] at h
                  subst h
                  obtain ⟨hch2, nc1, hh1, hp1⟩ := checkRefs_state env elemId f'
                    (splitHead elemId ':') refs false s found s₂ hcr
                  obtain ⟨⟨ce2, hc2⟩, nc2, hh2, hp2⟩ := vfOk f' s₂ (some inner) s₃ hvf
                  have helem : elemId ∈ s₃.checked ++ [elemId] :=
                    List.mem_append_right _ (by simp)
                  refine ⟨⟨⟨ce2 ++ [elemId], ?_⟩, nc1 ++ nc2, ?_, ?_⟩, helem⟩
                  · show s₃.checked ++ [elemId] = s.checked ++ (ce2 ++ [elemId])
                    rw [hc2, hch2, List.append_assoc]
                  · show s₃.hashCalls = s.hashCalls ++ (nc1 ++ nc2)
                    rw [hh2, hh1, List.append_assoc]
                  · intro c hc
                    rcases List.mem_append.mp hc with hin | hin
                    · rw [hp1 c hin]
                      exact ⟨hnotin, helem⟩
                    · obtain ⟨hna, hinb⟩ := hp2 c hin
                      rw [hch2] at hna
                      exact ⟨hna, List.mem_append_left _ hinb⟩
                · rw [if_neg hbr] at h
                  cases h

/-- The relationship loop of a successful walk evolves the session. -/
theorem processRelsF_evolves
    (vf : String → SState → Except VError (Option Manifest × SState))
    (env : Env) (md : Manifest) (file : String)
    (vfOk : ∀ f s m s', vf f s = .ok (m, s') → sessionEvolves s s') :
    ∀ (rels : List Relationship) (s s' : SState),
    processRelsF vf env md file rels s = .ok s' → sessionEvolves s s' := by
  intro rels
  induction rels with
  | nil =>
    intro s s' h
    simp only [processRelsF, Except.ok.injEq] at h
    subst h
    exact sessionEvolves_refl s
  | cons r rs ih =>
    intro s s' h
    simp only [processRelsF] at h
    split at h
    · split at h
      · exact ih s s' h
      · rename_i hcont
        cases hhl : handleLinkF vf env (pyReplace r.spdxElementId "DocumentRef-" "")
            r.relatedSpdxElement md file s with
        | error e => rw [hhl] at h; cases h
        | ok s'' =>
          rw [hhl] at h
          have hnotin : pyReplace r.spdxElementId "DocumentRef-" "" ∉ s.checked := by
            simpa using hcont
          have h1 := handleLinkF_evolves vf env _ _ md file vfOk s s'' hnotin hhl
          exact sessionEvolves_trans h1.1 (ih s'' s' h)
    · exact ih s s' h

/-- Every successful `validate_file` call evolves the session: checked ids
only accumulate, and each recorded digest computation concerns an element
id unchecked at call start and checked at call end. -/
theorem validateFile_evolves (env : Env) (dbg : Bool) :
    ∀ (fuel : Nat) (file : String) (rec : Bool) (s : SState)
      (m : Option Manifest) (s' : SState),
    validateFile env dbg fuel file rec s = .ok (m, s') → sessionEvolves s s' := by
  intro fuel
  induction fuel with
  | zero => intro file rec s m s' h; cases h
  | succ n ih =>
    intro file rec s m s' h
    simp only [validateFile] at h
    split at h
    · cases h
    · rename_i mdOpt hld
      have hs1 : sessionEvolves s
          { s with topManifest := if s.topManifest.isNone then mdOpt else s.topManifest } :=
        sessionEvolves_of_same _ _ rfl rfl
      by_cases hsch : env.schemaOk mdOpt = true
      case neg =>
        rw [if_pos hsch] at h
        cases h
      case pos =>
        rw [if_neg (not_not_intro hsch)] at h
        by_cases hrec : rec = true
        case neg =>
          rw [if_pos hrec] at h
          simp only [Except.ok.injEq, Prod.mk.injEq] at h
          obtain ⟨-, hs⟩ := h
          subst hs
          exact hs1
        case pos =>
          rw [if_neg (not_not_intro hrec)] at h
          split at h
          · cases h
          · rename_i md
            split at h
            · simp only [Except.ok.injEq, Prod.mk.injEq] at h
              obtain ⟨-, hs⟩ := h
              subst hs
              exact hs1
            · rename_i rels hrel
              split at h
              · cases h
              · rename_i s₂ hpr
                simp only [Except.ok.injEq, Prod.mk.injEq] at h
                obtain ⟨-, hs⟩ := h
                subst hs
                exact sessionEvolves_trans hs1
                  (processRelsF_evolves _ env md file
                    (fun f s m s' hh => ih f true s m s' hh) rels _ s₂ hpr)

/-- C9.  Within one session, a checked element id is never re-verified: in
a successful call every newly recorded checksum-provider invocation
concerns an element id absent from `checked_elements` at call start (an
already-checked id is skipped before any verification work), and every id
verified during the call is in `checked_elements` afterwards — so a second
`validate_file` on the same file performs no digest computation for any
element id checked by the first. -/
theorem no_reverification_of_checked_elements
    (env : Env) (dbg : Bool) (fuel₁ fuel₂ : Nat) (file : String) (rec₁ rec₂ : Bool)
    (s₀ s₁ s₂ : SState) (m₁ m₂ : Option Manifest)
    (h1 : validateFile env dbg fuel₁ file rec₁ s₀ = .ok (m₁, s₁))
    (h2 : validateFile env dbg fuel₂ file rec₂ s₁ = .ok (m₂, s₂)) :
    (∀ c ∈ s₁.hashCalls, c ∉ s₀.hashCalls → c.elemId ∈ s₁.checked) ∧
    (∀ c ∈ s₂.hashCalls, c ∉ s₁.hashCalls → c.elemId ∉ s₁.checked) := by
  obtain ⟨-, nc1, hh1, hp1⟩ := validateFile_evolves env dbg fuel₁ file rec₁ s₀ m₁ s₁ h1
  obtain ⟨-, nc2, hh2, hp2⟩ := validateFile_evolves env dbg fuel₂ file rec₂ s₁ m₂ s₂ h2
  constructor
  · intro c hc hnot
    rw [hh1] at hc
    rcases List.mem_append.mp hc with h | h
    · exact absurd h hnot
    · exact (hp1 c h).2
  · intro c hc hnot
    rw [hh2] at hc
    rcases List.mem_append.mp hc with h | h
    · exact absurd h hnot
    · exact (hp2 c h).1

/-- Session state after the first validation of the acyclic fixture. -/
def s1Acy : SState :=
  { checked := ["libfoo-1:X"], topManifest := some mRoot,
    hashCalls := [⟨"libfoo-1:X", "./libfoo-1.json", "SHA1"⟩] }

/-- C9, witness: two successive runs on `root.json` in one session; the
second run records no digest computation at all, so nothing is
re-verified. -/
theorem no_reverification_of_checked_elements_witness :
    (∀ c ∈ s1Acy.hashCalls, c ∉ initState.hashCalls → c.elemId ∈ s1Acy.checked) ∧
    (∀ c ∈ s1Acy.hashCalls, c ∉ s1Acy.hashCalls → c.elemId ∉ s1Acy.checked) :=
  no_reverification_of_checked_elements envAcy false 3 3 "root.json" true true
    initState s1Acy s1Acy (some mRoot) (some mRoot) (by decide) (by decide)

/-! ### Claim C10 -/

/-- C10.  With a non-empty search path (as `__init__` guarantees), an
element id whose pre-colon segment contains a hyphen resolves without the
index crash — the outcome is a found file or one of the structured
resolution errors — while an id whose pre-colon segment has no hyphen makes
`pkg_ver.split("-")[1]` raise a bare `IndexError` instead of any structured
validation error. -/
theorem malformed_id_index_error (env : Env) (elemId : String)
    (hne : env.spdxDirs ≠ []) :
    ('-' ∉ (splitHead elemId ':').toList →
      findManifestFile env elemId = .error .indexError) ∧
    ('-' ∈ (splitHead elemId ':').toList →
      findManifestFile env elemId ≠ .error .indexError) := by
  constructor
  · intro hno
    cases hds : env.spdxDirs with
    | nil => exact absurd hds hne
    | cons d ds =>
      have hsp := splitOnChar_of_not_mem '-' (splitHead elemId ':').toList hno
      rw [findManifestFile, hds]
      simp only [String.toList] at hsp
      simp [collectFiles, hsp]
  · intro hyes
    have h2 := two_le_splitOnChar_of_mem '-' (splitHead elemId ':').toList hyes
    have hco : collectFiles env elemId env.spdxDirs = .ok (candidateMatches env elemId) :=
      collectFiles_ok env elemId h2 env.spdxDirs
    simp only [findManifestFile, hco]
    by_cases h0 : (candidateMatches env elemId).length = 0
    · rw [if_pos h0]
      simp
    · rw [if_neg h0]
      by_cases h1 : (candidateMatches env elemId).length > 1
      · rw [if_pos h1]
        simp
      · rw [if_neg h1]
        simp

/-- C10, witness: element id `foo:X` (no hyphen before the colon) crashes
resolution with the index error on the default search path. -/
theorem malformed_id_index_error_witness :
    findManifestFile envCyc "foo:X" = .error .indexError :=
  (malformed_id_index_error envCyc "foo:X" (by decide)).1 (by decide)

end SpdxVal
